import Mathlib

/-!
Verification development for the storedb crate: a typed, transactional
key-value layer over SQLite. The development shallowly embeds the two
variants found in the source: the single-table variant (src/tx.rs,
src/db.rs, table kv_store with key BLOB PRIMARY KEY) and the namespaced
variant (src/collection_tx.rs, src/database.rs, src/collection.rs, table
kv_store with PRIMARY KEY (collection, key) plus the collection_meta
registry). SQLite tables are embedded as association lists of byte rows;
the postcard codec is an explicit pair of fallible functions; engine
errors mirror the rusqlite error shapes the source matches on.
-/

set_option autoImplicit false

/-- Byte strings, as stored in the key and value BLOB columns. -/
abbrev Bytes := List Nat

/-- Opaque stand-in for postcard::Error; the code only carries it. -/
structure PostcardError where
  code : Nat
deriving DecidableEq, Repr

/-- The SQLite extended result code SQLITE_CONSTRAINT_PRIMARYKEY (1555),
which Tx::put and CollectionTx::put test for. -/
def SQLITE_CONSTRAINT_PRIMARYKEY : Nat := 1555

/-- The payload of rusqlite::Error::SqliteFailure that the source
inspects: only the extended result code. -/
structure SqliteFailureInfo where
  extended_code : Nat
deriving DecidableEq, Repr

/-- Stand-in for rusqlite::Error restricted to the shapes the source
distinguishes: SqliteFailure with an extended code, and everything else. -/
inductive RusqliteError where
  | sqliteFailure (info : SqliteFailureInfo) (msg : Option String)
  | other (code : Nat)
deriving DecidableEq, Repr

/-- The crate error type from src/err.rs. -/
inductive Error where
  | SqliteError (e : RusqliteError)
  | SerializationError (e : PostcardError)
  | KeyAlreadyExists
  | TypeMismatch (expected_key expected_value got_key got_value : String)
deriving DecidableEq, Repr

/-- The postcard codec boundary: postcard::to_stdvec and
postcard::from_bytes for one Rust type, both fallible. -/
structure Codec (α : Type) where
  enc : α → Except PostcardError Bytes
  dec : Bytes → Except PostcardError α

/-! ## The single-table engine: kv_store (key BLOB PRIMARY KEY, value BLOB) -/

/-- The kv_store table of src/db.rs as a list of rows (key, value). -/
abbrev KVStore := List (Bytes × Bytes)

/-- SELECT value FROM kv_store WHERE key = ?. -/
def lookupKV : KVStore → Bytes → Option Bytes
  | [], _ => none
  | (k, v) :: rest, kb => if k = kb then some v else lookupKV rest kb

/-- SELECT 1 FROM kv_store WHERE key = ? (the exists check of Tx::contains). -/
def containsKV (st : KVStore) (kb : Bytes) : Bool :=
  (lookupKV st kb).isSome

/-- INSERT OR REPLACE INTO kv_store (key, value) VALUES (?, ?). -/
def sqlInsertOrReplace : KVStore → Bytes → Bytes → KVStore
  | [], kb, vb => [(kb, vb)]
  | (k, v) :: rest, kb, vb =>
    if k = kb then (kb, vb) :: rest else (k, v) :: sqlInsertOrReplace rest kb vb

/-- INSERT INTO kv_store (key, value) VALUES (?, ?): fails with the
primary-key constraint code when the key is already present. -/
def sqlInsert (st : KVStore) (kb vb : Bytes) : Except RusqliteError KVStore :=
  if containsKV st kb then
    .error (.sqliteFailure ⟨SQLITE_CONSTRAINT_PRIMARYKEY⟩ none)
  else
    .ok (st ++ [(kb, vb)])

/-- DELETE FROM kv_store WHERE key = ?. -/
def sqlDelete : KVStore → Bytes → KVStore
  | [], _ => []
  | (k, v) :: rest, kb =>
    if k = kb then sqlDelete rest kb else (k, v) :: sqlDelete rest kb

/-! ## Tx: the single-table transaction handle (src/tx.rs)

Mutating operations return the outcome paired with the resulting working
state of the engine transaction; a failed statement leaves the state
unchanged (SQLite statement-level atomicity). -/

/-- Tx::contains from src/tx.rs. -/
def Tx.contains {K : Type} (ck : Codec K) (st : KVStore) (key : K) :
    Except Error Bool :=
  match ck.enc key with
  | .error e => .error (.SerializationError e)
  | .ok kb => .ok (containsKV st kb)

/-- Tx::get from src/tx.rs: decode failure of stored value bytes is a
SerializationError, not absence. -/
def Tx.get {K V : Type} (ck : Codec K) (cv : Codec V) (st : KVStore) (key : K) :
    Except Error (Option V) :=
  match ck.enc key with
  | .error e => .error (.SerializationError e)
  | .ok kb =>
    match lookupKV st kb with
    | none => .ok none
    | some vb =>
      match cv.dec vb with
      | .error e => .error (.SerializationError e)
      | .ok v => .ok (some v)

/-- Tx::set from src/tx.rs: key then value encoded, then INSERT OR REPLACE. -/
def Tx.set {K V : Type} (ck : Codec K) (cv : Codec V) (st : KVStore)
    (key : K) (val : V) : Except Error Unit × KVStore :=
  match ck.enc key with
  | .error e => (.error (.SerializationError e), st)
  | .ok kb =>
    match cv.enc val with
    | .error e => (.error (.SerializationError e), st)
    | .ok vb => (.ok (), sqlInsertOrReplace st kb vb)

/-- The match arm of Tx::put on the engine result: a SqliteFailure whose
extended code is SQLITE_CONSTRAINT_PRIMARYKEY becomes KeyAlreadyExists,
every other engine error is passed through as Error::SqliteError. -/
def matchPutResult (st : KVStore) (r : Except RusqliteError KVStore) :
    Except Error Unit × KVStore :=
  match r with
  | .ok st1 => (.ok (), st1)
  | .error (.sqliteFailure info msg) =>
    if info.extended_code = SQLITE_CONSTRAINT_PRIMARYKEY then
      (.error .KeyAlreadyExists, st)
    else
      (.error (.SqliteError (.sqliteFailure info msg)), st)
  | .error e => (.error (.SqliteError e), st)

/-- Tx::put from src/tx.rs: key then value encoded, then plain INSERT,
then the constraint-code match. -/
def Tx.put {K V : Type} (ck : Codec K) (cv : Codec V) (st : KVStore)
    (key : K) (val : V) : Except Error Unit × KVStore :=
  match ck.enc key with
  | .error e => (.error (.SerializationError e), st)
  | .ok kb =>
    match cv.enc val with
    | .error e => (.error (.SerializationError e), st)
    | .ok vb => matchPutResult st (sqlInsert st kb vb)

/-- Tx::del from src/tx.rs. -/
def Tx.del {K : Type} (ck : Codec K) (st : KVStore) (key : K) :
    Except Error Unit × KVStore :=
  match ck.enc key with
  | .error e => (.error (.SerializationError e), st)
  | .ok kb => (.ok (), sqlDelete st kb)

/-- The row loop of Tx::keys: decode each key in scan order, aborting the
whole call on the first decode failure. -/
def keysGo {K : Type} (ck : Codec K) : KVStore → Except Error (List K)
  | [] => .ok []
  | (kb, _) :: rest =>
    match ck.dec kb with
    | .error e => .error (.SerializationError e)
    | .ok k =>
      match keysGo ck rest with
      | .error e => .error e
      | .ok ks => .ok (k :: ks)

/-- Tx::keys from src/tx.rs. -/
def Tx.keys {K : Type} (ck : Codec K) (st : KVStore) : Except Error (List K) :=
  keysGo ck st

/-- The row loop of Tx::scan: decode key then value of each row, aborting
the whole call on the first decode failure. -/
def scanGo {K V : Type} (ck : Codec K) (cv : Codec V) :
    KVStore → Except Error (List (K × V))
  | [] => .ok []
  | (kb, vb) :: rest =>
    match ck.dec kb with
    | .error e => .error (.SerializationError e)
    | .ok k =>
      match cv.dec vb with
      | .error e => .error (.SerializationError e)
      | .ok v =>
        match scanGo ck cv rest with
        | .error e => .error e
        | .ok es => .ok ((k, v) :: es)

/-- Tx::scan from src/tx.rs. -/
def Tx.scan {K V : Type} (ck : Codec K) (cv : Codec V) (st : KVStore) :
    Except Error (List (K × V)) :=
  scanGo ck cv st

/-! ## Db: transaction lifecycle over the committed store (src/db.rs)

The committed store and the transaction working state are both KVStore
values: begin snapshots the committed state, commit installs the working
state, rollback discards it (engine transaction semantics delegated to
SQLite per the spec). -/

/-- Db::begin: a fresh engine transaction sees the committed state. -/
def Db.begin (db : KVStore) : KVStore := db

/-- Tx::commit: the working state becomes the committed state. -/
def Tx.commit (_db work : KVStore) : KVStore := work

/-- Tx::rollback: the working state is discarded by the engine. -/
def Tx.rollback (db : KVStore) (_work : KVStore) : KVStore := db

/-- Tx::cancel, which delegates to Tx::rollback. -/
def Tx.cancel (db work : KVStore) : KVStore := Tx.rollback db work

/-! ## Concrete codec instances used by witnesses -/

/-- A lawful codec on Nat: a number encodes to the singleton list holding
it, and only singleton lists decode. -/
def natCodec : Codec Nat where
  enc n := .ok [n]
  dec b :=
    match b with
    | [n] => .ok n
    | _ => .error ⟨0⟩

/-- A codec whose encoder always fails, exercising the encode-error paths. -/
def failCodec : Codec Nat where
  enc _ := .error ⟨1⟩
  dec _ := .error ⟨1⟩

/-! ## Helper lemmas on the single-table engine -/

theorem lookupKV_append_self (st : KVStore) (kb vb : Bytes)
    (h : lookupKV st kb = none) :
    lookupKV (st ++ [(kb, vb)]) kb = some vb := by
  induction st with
  | nil => simp [lookupKV]
  | cons hd tl ih =>
    obtain ⟨k, v⟩ := hd
    by_cases hk : k = kb
    · simp [lookupKV, hk] at h
    · simp only [lookupKV, List.cons_append, if_neg hk] at h ⊢
      exact ih h

theorem lookupKV_insertOrReplace_self (st : KVStore) (kb vb : Bytes) :
    lookupKV (sqlInsertOrReplace st kb vb) kb = some vb := by
  induction st with
  | nil => simp [sqlInsertOrReplace, lookupKV]
  | cons hd tl ih =>
    obtain ⟨k, v⟩ := hd
    by_cases hk : k = kb
    · simp [sqlInsertOrReplace, hk, lookupKV]
    · simp only [sqlInsertOrReplace, if_neg hk, lookupKV, ih]

/-! ## The namespaced engine: kv_store (collection TEXT, key BLOB, value
BLOB, PRIMARY KEY (collection, key)) from src/database.rs -/

/-- The namespaced kv_store table as a list of rows
((collection, key), value). -/
abbrev CKVStore := List ((String × Bytes) × Bytes)

/-- SELECT value FROM kv_store WHERE collection = ? AND key = ?. -/
def clookup : CKVStore → String → Bytes → Option Bytes
  | [], _, _ => none
  | ((c1, k), v) :: rest, c, kb =>
    if c1 = c ∧ k = kb then some v else clookup rest c kb

/-- SELECT 1 FROM kv_store WHERE collection = ? AND key = ? (the exists
check of CollectionTx::contains). -/
def ccontains (st : CKVStore) (c : String) (kb : Bytes) : Bool :=
  (clookup st c kb).isSome

/-- INSERT OR REPLACE INTO kv_store (collection, key, value). -/
def cInsertOrReplace : CKVStore → String → Bytes → Bytes → CKVStore
  | [], c, kb, vb => [((c, kb), vb)]
  | ((c1, k), v) :: rest, c, kb, vb =>
    if c1 = c ∧ k = kb then ((c, kb), vb) :: rest
    else ((c1, k), v) :: cInsertOrReplace rest c kb vb

/-- INSERT INTO kv_store (collection, key, value): fails with the
primary-key constraint code when (collection, key) is already present. -/
def cInsert (st : CKVStore) (c : String) (kb vb : Bytes) :
    Except RusqliteError CKVStore :=
  if ccontains st c kb then
    .error (.sqliteFailure ⟨SQLITE_CONSTRAINT_PRIMARYKEY⟩ none)
  else
    .ok (st ++ [((c, kb), vb)])

/-- DELETE FROM kv_store WHERE collection = ? AND key = ?. -/
def cDelete : CKVStore → String → Bytes → CKVStore
  | [], _, _ => []
  | ((c1, k), v) :: rest, c, kb =>
    if c1 = c ∧ k = kb then cDelete rest c kb
    else ((c1, k), v) :: cDelete rest c kb

/-- DELETE FROM kv_store WHERE collection = ? (CollectionTx::clear). -/
def cClear : CKVStore → String → CKVStore
  | [], _ => []
  | ((c1, k), v) :: rest, c =>
    if c1 = c then cClear rest c else ((c1, k), v) :: cClear rest c

/-- SELECT key, value FROM kv_store WHERE collection = ?: the rows of one
collection in physical scan order. -/
def rowsOf (c : String) : CKVStore → List (Bytes × Bytes)
  | [] => []
  | ((c1, k), v) :: rest =>
    if c1 = c then (k, v) :: rowsOf c rest else rowsOf c rest

/-! ## CollectionTx: the namespaced transaction handle (src/collection_tx.rs) -/

/-- CollectionTx::contains. -/
def CollectionTx.contains {K : Type} (ck : Codec K) (c : String)
    (st : CKVStore) (key : K) : Except Error Bool :=
  match ck.enc key with
  | .error e => .error (.SerializationError e)
  | .ok kb => .ok (ccontains st c kb)

/-- CollectionTx::get. -/
def CollectionTx.get {K V : Type} (ck : Codec K) (cv : Codec V) (c : String)
    (st : CKVStore) (key : K) : Except Error (Option V) :=
  match ck.enc key with
  | .error e => .error (.SerializationError e)
  | .ok kb =>
    match clookup st c kb with
    | none => .ok none
    | some vb =>
      match cv.dec vb with
      | .error e => .error (.SerializationError e)
      | .ok v => .ok (some v)

/-- CollectionTx::set. -/
def CollectionTx.set {K V : Type} (ck : Codec K) (cv : Codec V) (c : String)
    (st : CKVStore) (key : K) (val : V) : Except Error Unit × CKVStore :=
  match ck.enc key with
  | .error e => (.error (.SerializationError e), st)
  | .ok kb =>
    match cv.enc val with
    | .error e => (.error (.SerializationError e), st)
    | .ok vb => (.ok (), cInsertOrReplace st c kb vb)

/-- The match arm of CollectionTx::put on the engine result, identical in
shape to the one in Tx::put. -/
def matchCPutResult (st : CKVStore) (r : Except RusqliteError CKVStore) :
    Except Error Unit × CKVStore :=
  match r with
  | .ok st1 => (.ok (), st1)
  | .error (.sqliteFailure info msg) =>
    if info.extended_code = SQLITE_CONSTRAINT_PRIMARYKEY then
      (.error .KeyAlreadyExists, st)
    else
      (.error (.SqliteError (.sqliteFailure info msg)), st)
  | .error e => (.error (.SqliteError e), st)

/-- CollectionTx::put. -/
def CollectionTx.put {K V : Type} (ck : Codec K) (cv : Codec V) (c : String)
    (st : CKVStore) (key : K) (val : V) : Except Error Unit × CKVStore :=
  match ck.enc key with
  | .error e => (.error (.SerializationError e), st)
  | .ok kb =>
    match cv.enc val with
    | .error e => (.error (.SerializationError e), st)
    | .ok vb => matchCPutResult st (cInsert st c kb vb)

/-- CollectionTx::del. -/
def CollectionTx.del {K : Type} (ck : Codec K) (c : String) (st : CKVStore)
    (key : K) : Except Error Unit × CKVStore :=
  match ck.enc key with
  | .error e => (.error (.SerializationError e), st)
  | .ok kb => (.ok (), cDelete st c kb)

/-- CollectionTx::clear. -/
def CollectionTx.clear (c : String) (st : CKVStore) :
    Except Error Unit × CKVStore :=
  (.ok (), cClear st c)

/-- CollectionTx::keys: the scoped row loop with abort-on-decode-failure. -/
def CollectionTx.keys {K : Type} (ck : Codec K) (c : String) (st : CKVStore) :
    Except Error (List K) :=
  keysGo ck (rowsOf c st)

/-- CollectionTx::scan: the scoped row loop decoding keys and values,
aborting the whole call on the first decode failure. -/
def CollectionTx.scan {K V : Type} (ck : Codec K) (cv : Codec V) (c : String)
    (st : CKVStore) : Except Error (List (K × V)) :=
  scanGo ck cv (rowsOf c st)

/-- CollectionTx::count. -/
def CollectionTx.count (c : String) (st : CKVStore) : Except Error Nat :=
  .ok (rowsOf c st).length

/-! ## CollectionTx lifecycle over the committed store -/

/-- Collection::begin, data view: a fresh engine transaction sees the
committed state. -/
def CollectionTx.beginWork (db : CKVStore) : CKVStore := db

/-- CollectionTx::commit: the working state becomes the committed state. -/
def CollectionTx.commit (_db work : CKVStore) : CKVStore := work

/-- CollectionTx::rollback: the working state is discarded by the engine. -/
def CollectionTx.rollback (db : CKVStore) (_work : CKVStore) : CKVStore := db

/-- CollectionTx::cancel, which delegates to CollectionTx::rollback. -/
def CollectionTx.cancel (db work : CKVStore) : CKVStore :=
  CollectionTx.rollback db work

/-! ## Write-operation sequences, for the rollback and frame claims -/

/-- One write operation of the transaction API. -/
inductive WriteOp (K V : Type) where
  | setOp (k : K) (v : V)
  | putOp (k : K) (v : V)
  | delOp (k : K)
  | clearOp

/-- The working state after one collection-scoped write operation; a
failed operation leaves the state unchanged. -/
def applyCOp {K V : Type} (ck : Codec K) (cv : Codec V) (c : String)
    (st : CKVStore) : WriteOp K V → CKVStore
  | .setOp k v => (CollectionTx.set ck cv c st k v).2
  | .putOp k v => (CollectionTx.put ck cv c st k v).2
  | .delOp k => (CollectionTx.del ck c st k).2
  | .clearOp => (CollectionTx.clear c st).2

/-- The working state after a sequence of collection-scoped writes. -/
def applyCWrites {K V : Type} (ck : Codec K) (cv : Codec V) (c : String) :
    List (WriteOp K V) → CKVStore → CKVStore
  | [], st => st
  | op :: rest, st => applyCWrites ck cv c rest (applyCOp ck cv c st op)

/-! ## The metadata registry (src/database.rs) -/

/-- The collection_meta table: rows (name, key_type, value_type). -/
abbrev MetaTable := List (String × String × String)

/-- SELECT key_type, value_type FROM collection_meta WHERE name = ?. -/
def findMeta : MetaTable → String → Option (String × String)
  | [], _ => none
  | (n, kt, vt) :: rest, name =>
    if n = name then some (kt, vt) else findMeta rest name

/-- The whole persistent state owned by a Database handle: the registry
and the namespaced entries table. -/
structure DatabaseState where
  meta : MetaTable
  kv : CKVStore
deriving DecidableEq, Repr

/-- Database::get_collection from src/database.rs: look the name up in
collection_meta; on a hit compare both stored signatures to the requested
ones and fail with TypeMismatch on any inequality; on a miss register the
requested pair; on success return the collection handle (its name). The
requested signatures play the role of type_name of K and V. -/
def Database.get_collection (st : DatabaseState)
    (name expected_key_type expected_value_type : String) :
    Except Error String × DatabaseState :=
  match findMeta st.meta name with
  | some (db_key_type, db_value_type) =>
    if db_key_type ≠ expected_key_type ∨ db_value_type ≠ expected_value_type then
      (.error (.TypeMismatch expected_key_type expected_value_type
        db_key_type db_value_type), st)
    else
      (.ok name, st)
  | none =>
    (.ok name,
      { st with meta := st.meta ++ [(name, expected_key_type, expected_value_type)] })

/-! ## The shared-connection model (src/collection.rs, src/db.rs)

Collection::begin calls unchecked_transaction on the Arc-shared
connection: nothing at the collection layer checks whether a transaction
is already open; the BEGIN statement simply reaches the engine. The
engine state here is the one bit the spec fixes: whether a transaction is
open on the connection; SQLite rejects BEGIN inside a transaction with
primary result code 1 (SQLITE_ERROR). -/

/-- The engine connection: whether an engine transaction is open on it. -/
structure Connection where
  inTx : Bool
deriving DecidableEq, Repr

/-- Modelled from the spec: the engine interface of section 6 opens a
transaction on a connection, and invariant 3 allows at most one open
engine transaction per connection, so a BEGIN issued while one is open
fails at runtime (SQLite: cannot start a transaction within a
transaction, result code 1). -/
def engineBeginTx (conn : Connection) : Except RusqliteError Connection :=
  if conn.inTx then
    .error (.sqliteFailure ⟨1⟩
      (some "cannot start a transaction within a transaction"))
  else
    .ok { inTx := true }

/-- Collection::begin from src/collection.rs: forwards straight to the
engine via unchecked_transaction and wraps the engine error, with no
collection-layer or interface-layer guard. -/
def Collection.begin (name : String) (conn : Connection) :
    Except Error (Connection × String) :=
  match engineBeginTx conn with
  | .error e => .error (.SqliteError e)
  | .ok conn1 => .ok (conn1, name)

/-- C1. Round-trip: a put that succeeds in an open transaction, once
committed, makes get in a freshly begun transaction on the same store
return some v, with the value decoding back to the original, for every
key and value type whose codec encodes k and v successfully and decodes
the value bytes back. -/
theorem put_commit_get_roundtrip {K V : Type} (ck : Codec K) (cv : Codec V)
    (db : KVStore) (k : K) (v : V) (kb vb : Bytes) (st1 : KVStore)
    (hk : ck.enc k = .ok kb) (hv : cv.enc v = .ok vb)
    (hd : cv.dec vb = .ok v)
    (hput : Tx.put ck cv (Db.begin db) k v = (.ok (), st1)) :
    Tx.get ck cv (Db.begin (Tx.commit db st1)) k = .ok (some v) := by
  simp only [Tx.put, Db.begin, hk, hv] at hput
  by_cases hc : containsKV db kb
  · simp [sqlInsert, hc, matchPutResult] at hput
  · simp only [sqlInsert, hc, if_neg, Bool.false_eq_true, ite_false,
      matchPutResult, Prod.mk.injEq] at hput
    have hst : st1 = db ++ [(kb, vb)] := hput.2.symm
    have hnone : lookupKV db kb = none := by
      simp only [containsKV, Option.isSome] at hc
      cases hl : lookupKV db kb with
      | none => rfl
      | some _ => simp [hl] at hc
    simp [Tx.get, Db.begin, Tx.commit, hk, hst,
      lookupKV_append_self db kb vb hnone, hd]

/-- Witness for C1 at a concrete store: put 1 ↦ 2 into the empty store,
commit, get 1 back. -/
theorem put_commit_get_roundtrip_witness :
    Tx.get natCodec natCodec (Db.begin (Tx.commit [] [([1], [2])])) 1 =
      .ok (some 2) :=
  put_commit_get_roundtrip natCodec natCodec [] 1 2 [1] [2] [([1], [2])]
    rfl rfl rfl rfl

theorem clookup_cInsertOrReplace_self (st : CKVStore) (c : String)
    (kb vb : Bytes) :
    clookup (cInsertOrReplace st c kb vb) c kb = some vb := by
  induction st with
  | nil => simp [cInsertOrReplace, clookup]
  | cons hd tl ih =>
    obtain ⟨⟨c1, k⟩, v⟩ := hd
    by_cases hk : c1 = c ∧ k = kb
    · simp [cInsertOrReplace, hk, clookup]
    · simp only [cInsertOrReplace, if_neg hk, clookup, ih]

/-- C2. Insert-only put: with the key already bound in the transaction
scope, put returns KeyAlreadyExists and leaves the state (hence the
stored entry, key bytes and value bytes) unchanged, in both the
single-table and the collection-scoped variant; any engine failure other
than a primary-key constraint violation is passed through as a storage
error by the result match of put. -/
theorem put_existing_key_rejected {K V : Type} (ck : Codec K) (cv : Codec V)
    (st : KVStore) (cst : CKVStore) (c : String) (k : K) (v2 : V)
    (kb vb2 : Bytes)
    (hk : ck.enc k = .ok kb) (hv : cv.enc v2 = .ok vb2)
    (hmem : containsKV st kb = true) (hcmem : ccontains cst c kb = true) :
    Tx.put ck cv st k v2 = (.error .KeyAlreadyExists, st) ∧
    lookupKV (Tx.put ck cv st k v2).2 kb = lookupKV st kb ∧
    CollectionTx.put ck cv c cst k v2 = (.error .KeyAlreadyExists, cst) ∧
    (∀ (st1 : KVStore) (e : RusqliteError),
      (∀ info msg, e = .sqliteFailure info msg →
        info.extended_code ≠ SQLITE_CONSTRAINT_PRIMARYKEY) →
      matchPutResult st1 (.error e) = (.error (.SqliteError e), st1)) ∧
    (∀ (cst1 : CKVStore) (e : RusqliteError),
      (∀ info msg, e = .sqliteFailure info msg →
        info.extended_code ≠ SQLITE_CONSTRAINT_PRIMARYKEY) →
      matchCPutResult cst1 (.error e) = (.error (.SqliteError e), cst1)) := by
  refine ⟨?_, ?_, ?_, ?_, ?_⟩
  · simp [Tx.put, hk, hv, sqlInsert, hmem, matchPutResult]
  · simp [Tx.put, hk, hv, sqlInsert, hmem, matchPutResult]
  · simp [CollectionTx.put, hk, hv, cInsert, hcmem, matchCPutResult]
  · intro st1 e he
    cases e with
    | sqliteFailure info msg =>
      exact by simp [matchPutResult, he info msg rfl]
    | other code => simp [matchPutResult]
  · intro cst1 e he
    cases e with
    | sqliteFailure info msg =>
      exact by simp [matchCPutResult, he info msg rfl]
    | other code => simp [matchCPutResult]

/-- Witness for C2: key bytes [1] are bound in the store, so a second put
is rejected and the store is untouched. -/
theorem put_existing_key_rejected_witness :
    Tx.put natCodec natCodec [([1], [2])] 1 9 =
      (.error .KeyAlreadyExists, [([1], [2])]) :=
  (put_existing_key_rejected natCodec natCodec [([1], [2])]
    [(("x", [1]), [2])] "x" 1 9 [1] [9] rfl rfl (by decide) (by decide)).1

/-- C3. Upsert set: set k v1 then set k v2 in one transaction leaves k
bound to v2 after commit (get in a new transaction returns some v2); set
on an absent key inserts it; and set never fails with the key-collision
error, whether or not the key is present. -/
theorem set_upsert {K V : Type} (ck : Codec K) (cv : Codec V) (db : KVStore)
    (k : K) (v1 v2 : V) (kb vb1 vb2 : Bytes)
    (hk : ck.enc k = .ok kb) (h1 : cv.enc v1 = .ok vb1)
    (h2 : cv.enc v2 = .ok vb2) (hd : cv.dec vb2 = .ok v2) :
    Tx.set ck cv (Db.begin db) k v1 = (.ok (), sqlInsertOrReplace db kb vb1) ∧
    Tx.get ck cv (Db.begin (Tx.commit db
      (Tx.set ck cv (Tx.set ck cv (Db.begin db) k v1).2 k v2).2)) k =
      .ok (some v2) ∧
    (lookupKV db kb = none →
      containsKV (Tx.set ck cv db k v1).2 kb = true) ∧
    (∀ (st : KVStore) (k1 : K) (w : V),
      (Tx.set ck cv st k1 w).1 ≠ .error .KeyAlreadyExists) := by
  refine ⟨?_, ?_, ?_, ?_⟩
  · simp [Tx.set, Db.begin, hk, h1]
  · simp [Tx.set, Tx.get, Db.begin, Tx.commit, hk, h1, h2,
      lookupKV_insertOrReplace_self, hd]
  · intro _
    simp [Tx.set, hk, h1, containsKV, lookupKV_insertOrReplace_self]
  · intro st k1 w
    cases he : ck.enc k1 with
    | error e => simp [Tx.set, he]
    | ok kb1 =>
      cases hw : cv.enc w with
      | error e => simp [Tx.set, he, hw]
      | ok vb1' => simp [Tx.set, he, hw]

/-- Witness for C3: set 1 ↦ 5 then 1 ↦ 7, commit, get 1 returns 7. -/
theorem set_upsert_witness :
    Tx.get natCodec natCodec (Db.begin (Tx.commit []
      (Tx.set natCodec natCodec
        (Tx.set natCodec natCodec (Db.begin []) 1 5).2 1 7).2)) 1 =
      .ok (some 7) :=
  (set_upsert natCodec natCodec [] 1 5 7 [1] [5] [7] rfl rfl rfl rfl).2.1

/-- C9. Read-your-writes inside one open transaction: after set, or after
a put that succeeded, get on the same transaction returns some v and
contains returns true, with no commit involved; in both variants. -/
theorem read_your_writes {K V : Type} (ck : Codec K) (cv : Codec V)
    (st : KVStore) (cst : CKVStore) (c : String) (k : K) (v : V)
    (kb vb : Bytes)
    (hk : ck.enc k = .ok kb) (hv : cv.enc v = .ok vb)
    (hd : cv.dec vb = .ok v) :
    Tx.get ck cv (Tx.set ck cv st k v).2 k = .ok (some v) ∧
    Tx.contains ck (Tx.set ck cv st k v).2 k = .ok true ∧
    (∀ st1, Tx.put ck cv st k v = (.ok (), st1) →
      Tx.get ck cv st1 k = .ok (some v) ∧
      Tx.contains ck st1 k = .ok true) ∧
    CollectionTx.get ck cv c (CollectionTx.set ck cv c cst k v).2 k =
      .ok (some v) ∧
    CollectionTx.contains ck c (CollectionTx.set ck cv c cst k v).2 k =
      .ok true := by
  refine ⟨?_, ?_, ?_, ?_, ?_⟩
  · simp [Tx.set, Tx.get, hk, hv, lookupKV_insertOrReplace_self, hd]
  · simp [Tx.set, Tx.contains, hk, hv, containsKV,
      lookupKV_insertOrReplace_self]
  · intro st1 hput
    simp only [Tx.put, hk, hv] at hput
    by_cases hc : containsKV st kb
    · simp [sqlInsert, hc, matchPutResult] at hput
    · simp only [sqlInsert, hc, Bool.false_eq_true, ite_false,
        matchPutResult, Prod.mk.injEq] at hput
      have hst : st1 = st ++ [(kb, vb)] := hput.2.symm
      have hnone : lookupKV st kb = none := by
        simp only [containsKV, Option.isSome] at hc
        cases hl : lookupKV st kb with
        | none => rfl
        | some _ => simp [hl] at hc
      constructor
      · simp [Tx.get, hk, hst, lookupKV_append_self st kb vb hnone, hd]
      · simp [Tx.contains, hk, hst, containsKV,
          lookupKV_append_self st kb vb hnone]
  · simp [CollectionTx.set, CollectionTx.get, hk, hv,
      clookup_cInsertOrReplace_self, hd]
  · simp [CollectionTx.set, CollectionTx.contains, hk, hv, ccontains,
      clookup_cInsertOrReplace_self]

/-- Witness for C9: set 1 ↦ 5 on an open transaction over the empty
store, then get 1 on the same transaction returns 5. -/
theorem read_your_writes_witness :
    Tx.get natCodec natCodec (Tx.set natCodec natCodec [] 1 5).2 1 =
      .ok (some 5) :=
  (read_your_writes natCodec natCodec [] [] "x" 1 5 [1] [5]
    rfl rfl rfl).1

/-- C10. Atomicity on encode failure: in set, put and del the key (and
for set and put the value) is encoded before any engine statement runs,
so when encoding of the key fails, or of the value after a successful key
encode, the operation returns SerializationError and the store state is
returned unchanged. -/
theorem encode_failure_no_write {K V : Type} (ck : Codec K) (cv : Codec V)
    (st : KVStore) (cst : CKVStore) (c : String) (k : K) (v : V)
    (e : PostcardError) :
    (ck.enc k = .error e →
      Tx.set ck cv st k v = (.error (.SerializationError e), st) ∧
      Tx.put ck cv st k v = (.error (.SerializationError e), st) ∧
      Tx.del ck st k = (.error (.SerializationError e), st) ∧
      CollectionTx.put ck cv c cst k v =
        (.error (.SerializationError e), cst)) ∧
    (∀ kb, ck.enc k = .ok kb → cv.enc v = .error e →
      Tx.set ck cv st k v = (.error (.SerializationError e), st) ∧
      Tx.put ck cv st k v = (.error (.SerializationError e), st) ∧
      CollectionTx.put ck cv c cst k v =
        (.error (.SerializationError e), cst)) := by
  constructor
  · intro he
    exact ⟨by simp [Tx.set, he], by simp [Tx.put, he], by simp [Tx.del, he],
      by simp [CollectionTx.put, he]⟩
  · intro kb hk hv
    exact ⟨by simp [Tx.set, hk, hv], by simp [Tx.put, hk, hv],
      by simp [CollectionTx.put, hk, hv]⟩

/-- Witness for C10: with an always-failing encoder, set leaves the store
untouched and reports the serialization error. -/
theorem encode_failure_no_write_witness :
    Tx.set failCodec natCodec [([1], [2])] 0 5 =
      (.error (.SerializationError ⟨1⟩), [([1], [2])]) :=
  ((encode_failure_no_write failCodec natCodec [([1], [2])] [] "x" 0 5
    ⟨1⟩).1 rfl).1

/-- C4. Rollback isolation: whatever sequence of writes (set, put, del,
clear) was applied on the open transaction, rollback discards the working
state, a transaction begun afterwards sees exactly the committed state
from before the rolled-back transaction began, and cancel is the same
operation as rollback; likewise for the single-table variant, whose
rollback discards any working state. -/
theorem rollback_isolation {K V : Type} (ck : Codec K) (cv : Codec V)
    (db : CKVStore) (c : String) (ops : List (WriteOp K V))
    (cwork : CKVStore) (sdb work : KVStore) (key : K) :
    CollectionTx.rollback db
      (applyCWrites ck cv c ops (CollectionTx.beginWork db)) = db ∧
    CollectionTx.get ck cv c
      (CollectionTx.beginWork (CollectionTx.rollback db
        (applyCWrites ck cv c ops (CollectionTx.beginWork db)))) key =
      CollectionTx.get ck cv c (CollectionTx.beginWork db) key ∧
    CollectionTx.cancel db cwork = CollectionTx.rollback db cwork ∧
    Tx.rollback sdb work = sdb ∧
    Tx.cancel sdb work = Tx.rollback sdb work :=
  ⟨rfl, rfl, rfl, rfl, rfl⟩

/-- C5. Type-signature enforcement: when the name is registered with a
signature pair differing from the requested one on either side,
get_collection fails with TypeMismatch carrying the requested pair as
expected and the stored pair as got, and the whole database state, both
the registry and the entries table, is returned unchanged; when the name
is absent the requested pair is registered and a handle is returned. -/
theorem get_collection_type_enforcement (st : DatabaseState)
    (name sk sv sk1 sv1 : String)
    (hfound : findMeta st.meta name = some (sk, sv))
    (hne : sk1 ≠ sk ∨ sv1 ≠ sv) :
    Database.get_collection st name sk1 sv1 =
      (.error (.TypeMismatch sk1 sv1 sk sv), st) ∧
    (Database.get_collection st name sk1 sv1).2.meta = st.meta ∧
    (Database.get_collection st name sk1 sv1).2.kv = st.kv ∧
    (∀ st2 : DatabaseState, findMeta st2.meta name = none →
      Database.get_collection st2 name sk1 sv1 =
        (.ok name,
          { st2 with meta := st2.meta ++ [(name, sk1, sv1)] })) := by
  have hne1 : sk ≠ sk1 ∨ sv ≠ sv1 := hne.imp Ne.symm Ne.symm
  refine ⟨?_, ?_, ?_, ?_⟩
  · simp [Database.get_collection, hfound, hne1]
  · simp [Database.get_collection, hfound, hne1]
  · simp [Database.get_collection, hfound, hne1]
  · intro st2 habsent
    simp [Database.get_collection, habsent]

/-- Witness for C5: the name users is registered as (u32, User); a
request as (String, String) fails with TypeMismatch carrying both pairs
and changes nothing. -/
theorem get_collection_type_enforcement_witness :
    Database.get_collection ⟨[("users", "u32", "User")], []⟩ "users"
      "String" "String" =
      (.error (.TypeMismatch "String" "String" "u32" "User"),
        ⟨[("users", "u32", "User")], []⟩) :=
  (get_collection_type_enforcement ⟨[("users", "u32", "User")], []⟩
    "users" "u32" "User" "String" "String" (by decide)
    (.inl (by decide))).1

theorem ccontains_eq_false (st : CKVStore) (c : String) (kb : Bytes)
    (h : ccontains st c kb = false) : clookup st c kb = none := by
  cases hl : clookup st c kb with
  | none => rfl
  | some _ => simp [ccontains, hl] at h

theorem clookup_append_other (st : CKVStore) (x y : String)
    (kb vb kb1 : Bytes) (hxy : x ≠ y) :
    clookup (st ++ [((x, kb), vb)]) y kb1 = clookup st y kb1 := by
  induction st with
  | nil => simp [clookup, hxy]
  | cons hd tl ih =>
    obtain ⟨⟨c1, k⟩, v⟩ := hd
    by_cases hk : c1 = y ∧ k = kb1
    · simp [clookup, hk]
    · simp only [List.cons_append, clookup, if_neg hk]
      exact ih

theorem clookup_append_self (st : CKVStore) (c : String) (kb vb : Bytes)
    (h : clookup st c kb = none) :
    clookup (st ++ [((c, kb), vb)]) c kb = some vb := by
  induction st with
  | nil => simp [clookup]
  | cons hd tl ih =>
    obtain ⟨⟨c1, k⟩, v⟩ := hd
    by_cases hk : c1 = c ∧ k = kb
    · simp [clookup, hk] at h
    · simp only [clookup, if_neg hk] at h
      simp only [List.cons_append, clookup, if_neg hk]
      exact ih h

theorem clookup_cInsertOrReplace_other (st : CKVStore) (x y : String)
    (kb vb kb1 : Bytes) (hxy : x ≠ y) :
    clookup (cInsertOrReplace st x kb vb) y kb1 = clookup st y kb1 := by
  induction st with
  | nil => simp [cInsertOrReplace, clookup, hxy]
  | cons hd tl ih =>
    obtain ⟨⟨c1, k⟩, v⟩ := hd
    by_cases hk : c1 = x ∧ k = kb
    · obtain ⟨rfl, rfl⟩ := hk
      simp [cInsertOrReplace, clookup, hxy]
    · by_cases hk1 : c1 = y ∧ k = kb1
      · obtain ⟨rfl, rfl⟩ := hk1
        simp [cInsertOrReplace, clookup, Ne.symm hxy]
      · simp only [cInsertOrReplace, if_neg hk, clookup, if_neg hk1]
        exact ih

theorem clookup_cDelete_other (st : CKVStore) (x y : String)
    (kb kb1 : Bytes) (hxy : x ≠ y) :
    clookup (cDelete st x kb) y kb1 = clookup st y kb1 := by
  induction st with
  | nil => simp [cDelete]
  | cons hd tl ih =>
    obtain ⟨⟨c1, k⟩, v⟩ := hd
    by_cases hk : c1 = x ∧ k = kb
    · obtain ⟨rfl, rfl⟩ := hk
      simp [cDelete, clookup, hxy, ih]
    · by_cases hk1 : c1 = y ∧ k = kb1
      · obtain ⟨rfl, rfl⟩ := hk1
        simp [cDelete, clookup, Ne.symm hxy]
      · simp only [cDelete, if_neg hk, clookup, if_neg hk1]
        exact ih

theorem clookup_cClear_other (st : CKVStore) (x y : String)
    (kb1 : Bytes) (hxy : x ≠ y) :
    clookup (cClear st x) y kb1 = clookup st y kb1 := by
  induction st with
  | nil => simp [cClear]
  | cons hd tl ih =>
    obtain ⟨⟨c1, k⟩, v⟩ := hd
    by_cases hk : c1 = x
    · subst hk
      simp [cClear, clookup, hxy, ih]
    · by_cases hk1 : c1 = y ∧ k = kb1
      · obtain ⟨rfl, rfl⟩ := hk1
        simp [cClear, clookup, hk]
      · simp only [cClear, if_neg hk, clookup, if_neg hk1]
        exact ih

theorem applyCOp_other_frame {K V : Type} (ck : Codec K) (cv : Codec V)
    (x y : String) (hxy : x ≠ y) (st : CKVStore) (op : WriteOp K V)
    (kb1 : Bytes) :
    clookup (applyCOp ck cv x st op) y kb1 = clookup st y kb1 := by
  cases op with
  | setOp k v =>
    cases he : ck.enc k with
    | error e => simp [applyCOp, CollectionTx.set, he]
    | ok kb =>
      cases hw : cv.enc v with
      | error e => simp [applyCOp, CollectionTx.set, he, hw]
      | ok vb =>
        simp [applyCOp, CollectionTx.set, he, hw,
          clookup_cInsertOrReplace_other st x y kb vb kb1 hxy]
  | putOp k v =>
    cases he : ck.enc k with
    | error e => simp [applyCOp, CollectionTx.put, he]
    | ok kb =>
      cases hw : cv.enc v with
      | error e => simp [applyCOp, CollectionTx.put, he, hw]
      | ok vb =>
        by_cases hc : ccontains st x kb
        · simp [applyCOp, CollectionTx.put, he, hw, cInsert, hc,
            matchCPutResult]
        · simp [applyCOp, CollectionTx.put, he, hw, cInsert, hc,
            matchCPutResult, clookup_append_other st x y kb vb kb1 hxy]
  | delOp k =>
    cases he : ck.enc k with
    | error e => simp [applyCOp, CollectionTx.del, he]
    | ok kb =>
      simp [applyCOp, CollectionTx.del, he,
        clookup_cDelete_other st x y kb kb1 hxy]
  | clearOp =>
    simp [applyCOp, CollectionTx.clear, clookup_cClear_other st x y kb1 hxy]

theorem applyCWrites_other_frame {K V : Type} (ck : Codec K) (cv : Codec V)
    (x y : String) (hxy : x ≠ y) (ops : List (WriteOp K V)) (st : CKVStore)
    (kb1 : Bytes) :
    clookup (applyCWrites ck cv x ops st) y kb1 = clookup st y kb1 := by
  induction ops generalizing st with
  | nil => rfl
  | cons op rest ih =>
    calc clookup (applyCWrites ck cv x (op :: rest) st) y kb1
        = clookup (applyCOp ck cv x st op) y kb1 := ih _
      _ = clookup st y kb1 := applyCOp_other_frame ck cv x y hxy st op kb1

/-- C6. Namespace isolation: with x and y distinct collection names, any
sequence of writes scoped to x leaves every entry of y unchanged, and the
same key bytes may be bound in x and in y at once, each get returning the
value of its own collection. -/
theorem namespace_isolation {K V : Type} (ck : Codec K) (cv : Codec V)
    (x y : String) (ops : List (WriteOp K V)) (st : CKVStore) (k : K)
    (a b : V) (kb ab bb : Bytes)
    (hxy : x ≠ y)
    (hk : ck.enc k = .ok kb) (ha : cv.enc a = .ok ab)
    (hda : cv.dec ab = .ok a) (hb : cv.enc b = .ok bb)
    (hdb : cv.dec bb = .ok b)
    (habs1 : ccontains st x kb = false)
    (habs2 : ccontains st y kb = false) :
    (∀ kb1, clookup (applyCWrites ck cv x ops st) y kb1 =
      clookup st y kb1) ∧
    CollectionTx.put ck cv x st k a = (.ok (), st ++ [((x, kb), ab)]) ∧
    CollectionTx.put ck cv y (st ++ [((x, kb), ab)]) k b =
      (.ok (), st ++ [((x, kb), ab)] ++ [((y, kb), bb)]) ∧
    CollectionTx.get ck cv x
      (st ++ [((x, kb), ab)] ++ [((y, kb), bb)]) k = .ok (some a) ∧
    CollectionTx.get ck cv y
      (st ++ [((x, kb), ab)] ++ [((y, kb), bb)]) k = .ok (some b) := by
  have hn1 : clookup st x kb = none := ccontains_eq_false st x kb habs1
  have hn2 : clookup st y kb = none := ccontains_eq_false st y kb habs2
  have hn2a : clookup (st ++ [((x, kb), ab)]) y kb = none := by
    rw [clookup_append_other st x y kb ab kb hxy]; exact hn2
  refine ⟨fun kb1 => applyCWrites_other_frame ck cv x y hxy ops st kb1,
    ?_, ?_, ?_, ?_⟩
  · simp [CollectionTx.put, hk, ha, cInsert, ccontains, hn1,
      matchCPutResult]
  · simp [CollectionTx.put, hk, hb, cInsert, ccontains, hn2a,
      matchCPutResult]
  · have hx : clookup (st ++ [((x, kb), ab)] ++ [((y, kb), bb)]) x kb =
        some ab := by
      rw [clookup_append_other (st ++ [((x, kb), ab)]) y x kb bb kb
        (Ne.symm hxy)]
      exact clookup_append_self st x kb ab hn1
    have hx1 : clookup (st ++ [((x, kb), ab), ((y, kb), bb)]) x kb =
        some ab := by simpa using hx
    simp [CollectionTx.get, hk, hx1, hda]
  · have hy : clookup (st ++ [((x, kb), ab)] ++ [((y, kb), bb)]) y kb =
        some bb :=
      clookup_append_self (st ++ [((x, kb), ab)]) y kb bb hn2a
    have hy1 : clookup (st ++ [((x, kb), ab), ((y, kb), bb)]) y kb =
        some bb := by simpa using hy
    simp [CollectionTx.get, hk, hy1, hdb]

/-- Witness for C6: key bytes [1] bound to [5] in collection x and to [7]
in collection y; the get of x returns 5 and the get of y returns 7. -/
theorem namespace_isolation_witness :
    CollectionTx.get natCodec natCodec "x"
      ([] ++ [(("x", [1]), [5])] ++ [(("y", [1]), [7])]) 1 =
      .ok (some 5) :=
  (namespace_isolation natCodec natCodec "x" "y" [] [] 1 5 7 [1] [5] [7]
    (by decide) rfl rfl rfl rfl rfl rfl rfl).2.2.2.1

theorem keysGo_error {K : Type} (ck : Codec K) (rows : KVStore)
    (h : ∃ kb vb, (kb, vb) ∈ rows ∧ ∃ e, ck.dec kb = .error e) :
    ∃ e1, keysGo ck rows = .error (.SerializationError e1) := by
  induction rows with
  | nil =>
    obtain ⟨kb, vb, hmem, _⟩ := h
    exact absurd hmem (List.not_mem_nil _)
  | cons hd rest ih =>
    obtain ⟨kb0, vb0⟩ := hd
    cases hd0 : ck.dec kb0 with
    | error e0 => exact ⟨e0, by simp [keysGo, hd0]⟩
    | ok k0 =>
      obtain ⟨kb, vb, hmem, e, hdec⟩ := h
      rcases List.mem_cons.mp hmem with heq | htl
      · obtain ⟨rfl, rfl⟩ := Prod.mk.injEq kb0 vb0 kb vb ▸ heq.symm
        exact absurd hdec (by simp [hd0])
      · obtain ⟨e1, hrec⟩ := ih ⟨kb, vb, htl, e, hdec⟩
        exact ⟨e1, by simp [keysGo, hd0, hrec]⟩

theorem scanGo_error {K V : Type} (ck : Codec K) (cv : Codec V)
    (rows : KVStore)
    (h : ∃ kb vb, (kb, vb) ∈ rows ∧
      ((∃ e, ck.dec kb = .error e) ∨ ∃ e, cv.dec vb = .error e)) :
    ∃ e1, scanGo ck cv rows = .error (.SerializationError e1) := by
  induction rows with
  | nil =>
    obtain ⟨kb, vb, hmem, _⟩ := h
    exact absurd hmem (List.not_mem_nil _)
  | cons hd rest ih =>
    obtain ⟨kb0, vb0⟩ := hd
    cases hd0 : ck.dec kb0 with
    | error e0 => exact ⟨e0, by simp [scanGo, hd0]⟩
    | ok k0 =>
      cases hv0 : cv.dec vb0 with
      | error e0 => exact ⟨e0, by simp [scanGo, hd0, hv0]⟩
      | ok v0 =>
        obtain ⟨kb, vb, hmem, hbad⟩ := h
        rcases List.mem_cons.mp hmem with heq | htl
        · obtain ⟨rfl, rfl⟩ := Prod.mk.injEq kb0 vb0 kb vb ▸ heq.symm
          rcases hbad with ⟨e, hdec⟩ | ⟨e, hdec⟩
          · exact absurd hdec (by simp [hd0])
          · exact absurd hdec (by simp [hv0])
        · obtain ⟨e1, hrec⟩ := ih ⟨kb, vb, htl, hbad⟩
          exact ⟨e1, by simp [scanGo, hd0, hv0, hrec]⟩

/-- C7. Decode failure aborts the whole call: get on a key whose stored
value bytes fail to decode returns a SerializationError rather than none;
keys returns a SerializationError for the whole call when any row key
fails to decode; and the collection-scoped scan returns a
SerializationError for the whole call when any row of the collection has
undecodable key or value bytes. The Except result carries no partial
rows. -/
theorem decode_failure_aborts {K V : Type} (ck : Codec K) (cv : Codec V)
    (st : KVStore) (cst : CKVStore) (c : String) (k : K) (kb vb : Bytes)
    (e : PostcardError) :
    (ck.enc k = .ok kb → lookupKV st kb = some vb →
      cv.dec vb = .error e →
      Tx.get ck cv st k = .error (.SerializationError e)) ∧
    ((∃ kb1 vb1, (kb1, vb1) ∈ st ∧ ∃ e1, ck.dec kb1 = .error e1) →
      ∃ e1, Tx.keys ck st = .error (.SerializationError e1)) ∧
    ((∃ kb1 vb1, (kb1, vb1) ∈ rowsOf c cst ∧
        ((∃ e1, ck.dec kb1 = .error e1) ∨ ∃ e1, cv.dec vb1 = .error e1)) →
      ∃ e1, CollectionTx.scan ck cv c cst =
        .error (.SerializationError e1)) := by
  refine ⟨?_, ?_, ?_⟩
  · intro hk hl hd
    simp [Tx.get, hk, hl, hd]
  · intro h
    exact keysGo_error ck st h
  · intro h
    exact scanGo_error ck cv (rowsOf c cst) h

/-- Witness for C7: the store binds key bytes [1] to the empty byte
string, which natCodec cannot decode, so get reports the serialization
error instead of treating the entry as absent. -/
theorem decode_failure_aborts_witness :
    Tx.get natCodec natCodec [([1], [])] 1 =
      .error (.SerializationError ⟨0⟩) :=
  (decode_failure_aborts natCodec natCodec [([1], [])] [] "x" 1 [1] []
    ⟨0⟩).1 rfl rfl rfl

/-- C8. The claim asks that a second begin on the same store be prevented
or rejected at the interface level; Collection::begin instead forwards an
unchecked BEGIN to the shared connection, so while a transaction opened
through collection x is outstanding, begin through collection y is
executed and comes back as a runtime engine error wrapped in
Error::SqliteError, arbitrated by the engine rather than precluded by the
interface. -/
theorem second_begin_runtime_error :
    Collection.begin "x" ⟨false⟩ = .ok (⟨true⟩, "x") ∧
    Collection.begin "y" ⟨true⟩ =
      .error (.SqliteError (.sqliteFailure ⟨1⟩
        (some "cannot start a transaction within a transaction"))) := by
  exact ⟨rfl, rfl⟩
